import Mathlib

/-!
Shallow embedding of the adaptive rebalancing core of the HERPath career-roadmap
application, together with proofs of the specified properties.

Embedded components:
* the rule engine (utils/rule_engine.py): the five checks, severity ranking, and
  the stable-sort-by-severity selection performed by `RuleEngine.evaluate`;
* output sanitation (utils/json_validator.py): `sanitize_roadmap_output` schema
  backfill and the `ensure_week_continuity` renumbering pass;
* the versioned roadmap store (database/firestore_client.py): `create_roadmap`
  with its deactivate-then-append behaviour and `update_current_week`.

Modelling conventions: Python numbers are embedded as `Int` (counts, weeks,
hours) and `Rat` (percentages computed by true division; Python floats are
idealised as exact rationals). Python dicts holding roadmap bodies of uncertain
shape are embedded as structures of `Option`-typed fields, `none` standing for
an absent key. Checks returning `None` or a recommendation become
`Option`-valued functions. Python list.sort is stable; it is embedded as
`List.insertionSort` with the non-strict severity comparison, which computes
exactly the stable sort by severity rank. Thresholds are the class defaults of
the singleton `rule_engine = RuleEngine()` instance.
-/

namespace HerPath

/-! ### Rule engine data model (utils/rule_engine.py) -/

/-- Trigger kinds, mirroring the `RebalanceTrigger` enum. -/
inductive RebalanceTrigger where
  | missed_tasks
  | hours_changed
  | deadline_changed
  | ahead_of_schedule
  | user_requested
  | situation_changed
deriving DecidableEq, Repr

/-- Output record of the rule engine, mirroring the `RebalanceRecommendation`
dataclass. -/
structure RebalanceRecommendation where
  should_rebalance : Bool
  trigger : Option RebalanceTrigger
  severity : String
  message : String
  suggested_actions : List String
deriving DecidableEq, Repr

/-- The fields of the progress summary dict read by the rule engine. -/
structure ProgressData where
  completion_percentage : ℚ
  missed_tasks_count : ℤ
  total_tasks_count : ℤ
deriving DecidableEq, Repr

/-- The fields of the user profile dict read by the rule engine.
`deadline_type` and `situation` are read with `dict.get(key)`, which yields
`None` for a missing key, hence the `Option` type. -/
structure UserData where
  weekly_hours : ℤ
  deadline_type : Option String
  situation : Option String
deriving DecidableEq, Repr

/-- The fields of the active roadmap dict read by the rule engine. -/
structure RoadmapData where
  current_week : ℤ
  total_weeks : ℤ
deriving DecidableEq, Repr

/-- Default threshold `MISSED_TASK_THRESHOLD_PERCENT = 30`. -/
def MISSED_TASK_THRESHOLD_PERCENT : ℚ := 30

/-- Default threshold `AHEAD_THRESHOLD_PERCENT = 20`. -/
def AHEAD_THRESHOLD_PERCENT : ℚ := 20

/-- Default threshold `HOURS_CHANGE_THRESHOLD_PERCENT = 25`. -/
def HOURS_CHANGE_THRESHOLD_PERCENT : ℚ := 25

/-- Embedding of the `"%.0f"` format applied to the percentage in the
missed-tasks message: round to the nearest integer, ties to even. -/
def formatRound (q : ℚ) : ℤ :=
  let f : ℤ := ⌊q⌋
  if q - f < 1/2 then f
  else if 1/2 < q - f then f + 1
  else if f % 2 = 0 then f else f + 1

/-- `RuleEngine._check_missed_tasks`. Skips when `total_tasks_count == 0`,
otherwise fires when the missed percentage reaches the threshold. -/
def check_missed_tasks (progress_data : ProgressData) (_roadmap_data : RoadmapData) :
    Option RebalanceRecommendation :=
  let total_tasks := progress_data.total_tasks_count
  let missed_tasks := progress_data.missed_tasks_count
  if total_tasks = 0 then none
  else
    let missed_percent : ℚ := (missed_tasks : ℚ) / (total_tasks : ℚ) * 100
    if missed_percent ≥ MISSED_TASK_THRESHOLD_PERCENT then
      let severity := if missed_percent ≥ 50 then "high" else "medium"
      some
        { should_rebalance := true
          trigger := some RebalanceTrigger.missed_tasks
          severity := severity
          message := "You\x27ve missed " ++ toString (formatRound missed_percent) ++
            "% of tasks. Let\x27s adjust your roadmap to be more achievable."
          suggested_actions :=
            ["Extend your timeline to reduce weekly workload",
             "Focus on the highest priority skills only",
             "Break tasks into smaller, more manageable pieces",
             "Consider if your weekly hours estimate is realistic"] }
    else none

/-- `RuleEngine._check_ahead_of_schedule`. When `total_weeks` is not positive
the expected percentage is taken to be `0` (the check is not skipped). -/
def check_ahead_of_schedule (progress_data : ProgressData) (roadmap_data : RoadmapData) :
    Option RebalanceRecommendation :=
  let completion_pct := progress_data.completion_percentage
  let current_week := roadmap_data.current_week
  let total_weeks := roadmap_data.total_weeks
  let expected_pct : ℚ :=
    if total_weeks > 0 then (current_week : ℚ) / (total_weeks : ℚ) * 100 else 0
  if completion_pct ≥ expected_pct + AHEAD_THRESHOLD_PERCENT then
    some
      { should_rebalance := true
        trigger := some RebalanceTrigger.ahead_of_schedule
        severity := "low"
        message := "Amazing progress! You\x27re ahead of schedule. Would you like to add advanced topics?"
        suggested_actions :=
          ["Add an optional advanced mini-project",
           "Dive deeper into a topic you\x27re interested in",
           "Start interview prep earlier",
           "Keep current pace and finish early"] }
  else none

/-- `RuleEngine._check_hours_change`. Skips when the previous weekly hours are
zero, otherwise fires when the relative change reaches the threshold. -/
def check_hours_change (current_user previous_user : UserData) :
    Option RebalanceRecommendation :=
  let current_hours := current_user.weekly_hours
  let previous_hours := previous_user.weekly_hours
  if previous_hours = 0 then none
  else
    let change_percent : ℚ := ((|current_hours - previous_hours| : ℤ) : ℚ) / (previous_hours : ℚ) * 100
    if change_percent ≥ HOURS_CHANGE_THRESHOLD_PERCENT then
      let direction := if current_hours > previous_hours then "increased" else "decreased"
      some
        { should_rebalance := true
          trigger := some RebalanceTrigger.hours_changed
          severity := "medium"
          message := "Your weekly hours " ++ direction ++ ". Let\x27s adjust your roadmap accordingly."
          suggested_actions :=
            ["Recalculate timeline based on " ++ toString current_hours ++ " hours/week",
             "Redistribute remaining tasks",
             "Update milestones and deadlines"] }
    else none

/-- `RuleEngine._check_deadline_change`: fires on any inequality of the
deadline descriptors. -/
def check_deadline_change (current_user previous_user : UserData) :
    Option RebalanceRecommendation :=
  if current_user.deadline_type ≠ previous_user.deadline_type then
    some
      { should_rebalance := true
        trigger := some RebalanceTrigger.deadline_changed
        severity := "high"
        message := "Your timeline has changed. Let\x27s rebuild your roadmap."
        suggested_actions :=
          ["Regenerate roadmap with new deadline",
           "Adjust task distribution",
           "Reprioritize remaining skills"] }
  else none

/-- `RuleEngine._check_situation_change`: fires on any inequality of the
situation categories. -/
def check_situation_change (current_user previous_user : UserData) :
    Option RebalanceRecommendation :=
  if current_user.situation ≠ previous_user.situation then
    some
      { should_rebalance := true
        trigger := some RebalanceTrigger.situation_changed
        severity := "medium"
        message := "Your situation has changed. Let\x27s adjust your plan to fit your new circumstances."
        suggested_actions :=
          ["Review and adjust weekly hours",
           "Consider new time constraints or opportunities",
           "Update resource recommendations"] }
  else none

/-- The severity rank lookup `severity_order.get(r.severity, 3)` with
`{"high": 0, "medium": 1, "low": 2}`. -/
def severity_order (s : String) : ℕ :=
  if s = "high" then 0 else if s = "medium" then 1 else if s = "low" then 2 else 3

/-- Severity rank of a recommendation: the sort key used by `evaluate`. -/
def sevRank (rec : RebalanceRecommendation) : ℕ :=
  severity_order rec.severity

/-- The comparison passed to the stable sort in `evaluate`. -/
def sevLE (a b : RebalanceRecommendation) : Prop :=
  sevRank a ≤ sevRank b

instance : DecidableRel sevLE :=
  fun a b => inferInstanceAs (Decidable (sevRank a ≤ sevRank b))

/-- The fixed recommendation returned when no check fires. -/
def noRebalanceRecommendation : RebalanceRecommendation :=
  { should_rebalance := false
    trigger := none
    severity := "none"
    message := "You\x27re on track! Keep up the great work."
    suggested_actions := [] }

instance : Inhabited RebalanceRecommendation := ⟨noRebalanceRecommendation⟩

/-- The candidate list assembled by `evaluate`, in evaluation order:
missed tasks, ahead of schedule, then (only when a previous profile is
supplied) hours, deadline, situation. -/
def candidates (progress_data : ProgressData) (user_data : UserData)
    (roadmap_data : RoadmapData) (previous_user_data : Option UserData) :
    List RebalanceRecommendation :=
  (check_missed_tasks progress_data roadmap_data).toList ++
  (check_ahead_of_schedule progress_data roadmap_data).toList ++
  (match previous_user_data with
   | none => []
   | some previous =>
       (check_hours_change user_data previous).toList ++
       (check_deadline_change user_data previous).toList ++
       (check_situation_change user_data previous).toList)

/-- `RuleEngine.evaluate`: collect the firing checks, stable-sort by severity
rank, return the head; a fixed recommendation when nothing fires.
`List.insertionSort` with the non-strict comparison `sevLE` is the stable sort
by `sevRank`, matching Python's stable `list.sort`. -/
def evaluate (progress_data : ProgressData) (user_data : UserData)
    (roadmap_data : RoadmapData) (previous_user_data : Option UserData) :
    RebalanceRecommendation :=
  let recommendations := candidates progress_data user_data roadmap_data previous_user_data
  if recommendations.isEmpty then noRebalanceRecommendation
  else (recommendations.insertionSort sevLE).headI

/-- First element of the list attaining the minimal rank — the specified
selection: lowest severity rank, ties broken by list (i.e. evaluation) order. -/
def firstMinBy {α : Type} (rank : α → ℕ) : List α → Option α
  | [] => none
  | a :: l =>
    match firstMinBy rank l with
    | none => some a
    | some m => some (if rank m < rank a then m else a)

/-! ### Output sanitation (utils/json_validator.py)

Roadmap bodies of uncertain shape are dicts; an absent key is `none`. -/

/-- A week dict as seen by the sanitizer: every key may be absent. -/
structure RawWeek where
  week_number : Option ℤ
  focus_skill : Option String
  tasks : Option (List String)
  milestone : Option String
  success_metric : Option String
deriving DecidableEq, Repr

/-- A phase dict as seen by the sanitizer: every key may be absent. -/
structure RawPhase where
  phase_name : Option String
  weeks : Option (List RawWeek)
deriving DecidableEq, Repr

/-- A roadmap body dict as seen by the sanitizer. -/
structure RawRoadmap where
  total_weeks : Option ℤ
  phases : Option (List RawPhase)
deriving DecidableEq, Repr

/-- The week-level backfill loop of `sanitize_roadmap_output`: each missing key
receives its documented default. -/
def sanitizeWeek (week : RawWeek) : RawWeek :=
  { week_number := some (week.week_number.getD 1)
    focus_skill := some (week.focus_skill.getD "General Learning")
    tasks := some (week.tasks.getD [])
    milestone := some (week.milestone.getD "Complete weekly tasks")
    success_metric := some (week.success_metric.getD "All tasks completed") }

/-- The phase-level backfill loop of `sanitize_roadmap_output`. -/
def sanitizePhase (phase : RawPhase) : RawPhase :=
  { phase_name := some (phase.phase_name.getD "Unnamed Phase")
    weeks := some ((phase.weeks.getD []).map sanitizeWeek) }

/-- `sanitize_roadmap_output`: coerce `total_weeks` to an integer (already an
integer in this embedding), default `phases` to `[]`, and backfill every phase
and week. -/
def sanitize_roadmap_output (data : RawRoadmap) : RawRoadmap :=
  { total_weeks := data.total_weeks
    phases := some ((data.phases.getD []).map sanitizePhase) }

/-- The inner loop of `ensure_week_continuity`: assign `counter`, `counter+1`,
... to the weeks of one phase, in order. -/
def renumberWeeks (counter : ℕ) : List RawWeek → List RawWeek
  | [] => []
  | week :: rest =>
      { week with week_number := some (counter : ℤ) } :: renumberWeeks (counter + 1) rest

/-- The outer loop of `ensure_week_continuity`: a phase with no `weeks` key
contributes nothing and is left untouched (the loop body reads
`phase.get('weeks', [])` and never writes the key). -/
def renumberPhases (counter : ℕ) : List RawPhase → List RawPhase
  | [] => []
  | phase :: rest =>
      match phase.weeks with
      | none => phase :: renumberPhases counter rest
      | some ws =>
          { phase with weeks := some (renumberWeeks counter ws) } ::
            renumberPhases (counter + ws.length) rest

/-- `ensure_week_continuity`: walk all phases in order, all weeks within each
phase in order, reassigning `week_number` to a counter starting at 1. -/
def ensure_week_continuity (phases : List RawPhase) : List RawPhase :=
  renumberPhases 1 phases

/-- The weeks list a phase dict contributes when iterated with
`phase.get('weeks', [])`. -/
def phaseWeeks (phase : RawPhase) : List RawWeek :=
  phase.weeks.getD []

/-- Week numbers across all phases, in phase order and week order. -/
def allWeekNumbers : List RawPhase → List (Option ℤ)
  | [] => []
  | phase :: rest => (phaseWeeks phase).map (fun w => w.week_number) ++ allWeekNumbers rest

/-- Total count of weeks across all phases. -/
def totalWeekCount : List RawPhase → ℕ
  | [] => 0
  | phase :: rest => (phaseWeeks phase).length + totalWeekCount rest

/-- The specified contiguous week-number sequence `c, c+1, ...` of length `n`. -/
def expectedNumbers : ℕ → ℕ → List (Option ℤ)
  | _, 0 => []
  | c, n + 1 => some (c : ℤ) :: expectedNumbers (c + 1) n

/-- Erase the one field the continuity pass is allowed to change. -/
def stripWeekNumber (week : RawWeek) : RawWeek :=
  { week with week_number := none }

/-- Erase the week numbers of a phase, keeping everything else. -/
def stripPhase (phase : RawPhase) : RawPhase :=
  { phase with weeks := phase.weeks.map (List.map stripWeekNumber) }

/-- The sanitation pipeline as invoked by every caller:
`d = sanitize_roadmap_output(d); d['phases'] = ensure_week_continuity(d.get('phases', []))`. -/
def sanitation_pipeline (data : RawRoadmap) : RawRoadmap :=
  let s := sanitize_roadmap_output data
  { s with phases := some (ensure_week_continuity (s.phases.getD [])) }

/-! ### Versioned roadmap store (database/firestore_client.py)

The Firestore `roadmaps` collection is modelled as a list of documents in
creation order; the creation timestamp `roadmap_version` is modelled as a
strictly increasing natural counter, and a document id as the document's
position in the list. This models the non-demo (persistent) path, the one the
spec describes; demo-mode session storage is out of scope. -/

/-- A document of the `roadmaps` collection, restricted to the fields the
store operations touch. -/
structure RoadmapDoc where
  uid : String
  roadmap_version : ℕ
  total_weeks : ℤ
  current_week : ℤ
  is_active : Bool
  rebalance_reason : Option String
deriving DecidableEq, Repr

instance : Inhabited RoadmapDoc := ⟨⟨"", 0, 0, 0, false, none⟩⟩

/-- The `roadmaps` collection in creation order. -/
abbrev RoadmapStore := List RoadmapDoc

/-- The caller-supplied part of `roadmap_data`; callers never pass
`is_active`, so the `RoadmapSchema` default `is_active = True` applies. -/
structure NewRoadmapData where
  uid : String
  total_weeks : ℤ
  current_week : ℤ
  rebalance_reason : Option String
deriving DecidableEq, Repr

/-- `FirestoreClient._deactivate_user_roadmaps`: flip `is_active` to `False`
on every active document of the user. -/
def deactivate_user_roadmaps (uid : String) (store : RoadmapStore) : RoadmapStore :=
  store.map (fun doc =>
    if doc.uid = uid ∧ doc.is_active = true then { doc with is_active := false } else doc)

/-- The document persisted by `create_roadmap`: `RoadmapSchema(**roadmap_data)`
with the defaulted `is_active = True` and the fresh creation stamp. -/
def createdDoc (store : RoadmapStore) (data : NewRoadmapData) : RoadmapDoc :=
  { uid := data.uid
    roadmap_version := store.length
    total_weeks := data.total_weeks
    current_week := data.current_week
    is_active := true
    rebalance_reason := data.rebalance_reason }

/-- `FirestoreClient.create_roadmap` (persistent path): deactivate the user's
active roadmaps, then add the new document; returns the new document id. -/
def create_roadmap (store : RoadmapStore) (data : NewRoadmapData) : RoadmapStore × ℕ :=
  (deactivate_user_roadmaps data.uid store ++ [createdDoc store data], store.length)

/-- The documents the query `uid == uid, is_active == True` returns. -/
def activeRoadmaps (uid : String) (store : RoadmapStore) : List RoadmapDoc :=
  store.filter (fun doc => decide (doc.uid = uid ∧ doc.is_active = true))

/-- `FirestoreClient.update_current_week` unfolded: `get_active_roadmap` is the
`limit(1)` query, i.e. the first active document of the user; when found, a
Firestore `update({'current_week': week})` touches only that field of that
document and the call returns `True`; otherwise `False` with no write. -/
def update_active_week (uid : String) (week : ℤ) : RoadmapStore → RoadmapStore × Bool
  | [] => ([], false)
  | doc :: rest =>
      if doc.uid = uid ∧ doc.is_active = true then
        ({ doc with current_week := week } :: rest, true)
      else
        let r := update_active_week uid week rest
        (doc :: r.1, r.2)

/-- `FirestoreClient.update_current_week`, acting on the modelled store. -/
def update_current_week (store : RoadmapStore) (uid : String) (week : ℤ) :
    RoadmapStore × Bool :=
  update_active_week uid week store

/-! ### Helper lemmas on the stable-sort selection -/

theorem firstMinBy_mem {α : Type} (rank : α → ℕ) :
    ∀ {l : List α} {m : α}, firstMinBy rank l = some m → m ∈ l := by
  intro l
  induction l with
  | nil => intro m h; simp [firstMinBy] at h
  | cons a t ih =>
      intro m h
      rw [firstMinBy] at h
      cases ht : firstMinBy rank t with
      | none => rw [ht] at h; simp at h; simp [h]
      | some m0 =>
          rw [ht] at h
          simp at h
          by_cases hr : rank m0 < rank a
          · rw [if_pos hr] at h; subst h; exact List.mem_cons_of_mem a (ih ht)
          · rw [if_neg hr] at h; simp [h]

theorem firstMinBy_cons_of_min {α : Type} (rank : α → ℕ) (a : α) (l : List α)
    (h : ∀ x ∈ l, rank a ≤ rank x) : firstMinBy rank (a :: l) = some a := by
  rw [firstMinBy]
  cases hl : firstMinBy rank l with
  | none => rfl
  | some m => simp [Nat.not_lt.mpr (h m (firstMinBy_mem rank hl))]

theorem headI_orderedInsert (a b : RebalanceRecommendation) (l : List RebalanceRecommendation) :
    (List.orderedInsert sevLE a (b :: l)).headI = if sevLE a b then a else b := by
  rw [List.orderedInsert]
  split <;> rfl

theorem insertionSort_headI_eq_firstMinBy :
    ∀ (l : List RebalanceRecommendation), l ≠ [] →
      (l.insertionSort sevLE).headI = (firstMinBy sevRank l).getD noRebalanceRecommendation := by
  intro l
  induction l with
  | nil => intro h; exact absurd rfl h
  | cons a t ih =>
      intro _
      cases t with
      | nil => simp [List.insertionSort, List.orderedInsert, firstMinBy]
      | cons b t0 =>
          have hne : (b :: t0) ≠ [] := by simp
          have hlen : ((b :: t0).insertionSort sevLE).length = (b :: t0).length :=
            List.length_insertionSort sevLE _
          cases hsort : (b :: t0).insertionSort sevLE with
          | nil => rw [hsort] at hlen; simp at hlen
          | cons c s =>
              have hhead := ih hne
              rw [hsort] at hhead
              simp only [List.headI] at hhead
              cases hfm : firstMinBy sevRank (b :: t0) with
              | none =>
                  rw [firstMinBy] at hfm
                  cases h2 : firstMinBy sevRank t0 <;> rw [h2] at hfm <;> simp at hfm
              | some m =>
                  rw [hfm] at hhead
                  simp only [Option.getD_some] at hhead
                  subst hhead
                  rw [List.insertionSort, hsort, headI_orderedInsert]
                  rw [firstMinBy, hfm]
                  simp only [Option.getD_some]
                  by_cases hle : sevRank a ≤ sevRank c
                  · rw [if_pos (show sevLE a c from hle), if_neg (Nat.not_lt.mpr hle)]
                  · rw [if_neg (show ¬sevLE a c from hle), if_pos (Nat.lt_of_not_le hle)]

/-! ### Helper lemmas on the individual checks -/

theorem check_missed_tasks_fired {p : ProgressData} {r : RoadmapData}
    {rec : RebalanceRecommendation} (h : check_missed_tasks p r = some rec) :
    rec.trigger = some RebalanceTrigger.missed_tasks ∧
      (rec.severity = "high" ∨ rec.severity = "medium") ∧ rec.should_rebalance = true := by
  simp only [check_missed_tasks] at h
  split at h
  · simp at h
  · split at h
    · injection h with h
      subst h
      refine ⟨rfl, ?_, rfl⟩
      dsimp only
      split <;> simp
    · simp at h

theorem check_ahead_of_schedule_fired {p : ProgressData} {r : RoadmapData}
    {rec : RebalanceRecommendation} (h : check_ahead_of_schedule p r = some rec) :
    rec.trigger = some RebalanceTrigger.ahead_of_schedule ∧ rec.severity = "low" ∧
      rec.should_rebalance = true := by
  simp only [check_ahead_of_schedule] at h
  split at h <;> split at h <;>
    first
      | (injection h with h; subst h; exact ⟨rfl, rfl, rfl⟩)
      | simp at h

theorem check_hours_change_fired {cu pu : UserData}
    {rec : RebalanceRecommendation} (h : check_hours_change cu pu = some rec) :
    rec.trigger = some RebalanceTrigger.hours_changed ∧ rec.severity = "medium" ∧
      rec.should_rebalance = true := by
  simp only [check_hours_change] at h
  split at h
  · simp at h
  · split at h <;>
      first
        | (injection h with h; subst h; exact ⟨rfl, rfl, rfl⟩)
        | simp at h

theorem check_deadline_change_fired {cu pu : UserData}
    {rec : RebalanceRecommendation} (h : check_deadline_change cu pu = some rec) :
    rec.trigger = some RebalanceTrigger.deadline_changed ∧ rec.severity = "high" ∧
      rec.should_rebalance = true := by
  simp only [check_deadline_change] at h
  split at h <;>
    first
      | (injection h with h; subst h; exact ⟨rfl, rfl, rfl⟩)
      | simp at h

theorem check_situation_change_fired {cu pu : UserData}
    {rec : RebalanceRecommendation} (h : check_situation_change cu pu = some rec) :
    rec.trigger = some RebalanceTrigger.situation_changed ∧ rec.severity = "medium" ∧
      rec.should_rebalance = true := by
  simp only [check_situation_change] at h
  split at h <;>
    first
      | (injection h with h; subst h; exact ⟨rfl, rfl, rfl⟩)
      | simp at h

theorem mem_candidates {p : ProgressData} {u : UserData} {r : RoadmapData}
    {pv : Option UserData} {m : RebalanceRecommendation}
    (h : m ∈ candidates p u r pv) :
    check_missed_tasks p r = some m ∨ check_ahead_of_schedule p r = some m ∨
      (∃ prev, pv = some prev ∧
        (check_hours_change u prev = some m ∨ check_deadline_change u prev = some m ∨
          check_situation_change u prev = some m)) := by
  cases pv with
  | none =>
      simp only [candidates, List.append_nil, List.mem_append, Option.mem_toList,
        Option.mem_def] at h
      rcases h with h | h
      · exact Or.inl h
      · exact Or.inr (Or.inl h)
  | some prev =>
      simp only [candidates, List.mem_append, Option.mem_toList, Option.mem_def] at h
      rcases h with (h | h) | (h | h) | h
      · exact Or.inl h
      · exact Or.inr (Or.inl h)
      · exact Or.inr (Or.inr ⟨prev, rfl, Or.inl h⟩)
      · exact Or.inr (Or.inr ⟨prev, rfl, Or.inr (Or.inl h)⟩)
      · exact Or.inr (Or.inr ⟨prev, rfl, Or.inr (Or.inr h)⟩)

/-- `evaluate` always returns the first candidate of minimal severity rank
(the head of the stable sort), or the fixed recommendation when none fires. -/
theorem evaluate_eq_firstMinBy (p : ProgressData) (u : UserData) (r : RoadmapData)
    (pv : Option UserData) :
    evaluate p u r pv = (firstMinBy sevRank (candidates p u r pv)).getD noRebalanceRecommendation := by
  rw [evaluate]
  cases hc : candidates p u r pv with
  | nil => simp [firstMinBy]
  | cons a t =>
      simp only [List.isEmpty_cons, if_neg (by simp : ¬(false = true))]
      rw [← hc]
      exact insertionSort_headI_eq_firstMinBy _ (by rw [hc]; simp)

end HerPath

namespace HerPath

/-- Claim C1, amended: when more than one check fires, `evaluate` returns exactly
one recommendation, the candidate with the numerically lowest severity rank under
high(0) < medium(1) < low(2), ties within a severity broken by evaluation order
(missed-tasks, ahead-of-schedule, hours, deadline, situation) — the head of the
stable sort by severity. Consequently, whenever both the missed-tasks check and
the ahead-of-schedule check fire, `evaluate` returns the missed-tasks
recommendation, unless the missed severity is medium and the deadline-changed
check (severity high) also fires. -/
theorem evaluate_tie_break :
    ∀ (p : ProgressData) (u : UserData) (r : RoadmapData) (pv : Option UserData),
      (2 ≤ (candidates p u r pv).length →
        evaluate p u r pv =
          (firstMinBy sevRank (candidates p u r pv)).getD noRebalanceRecommendation) ∧
      (∀ mrec, check_missed_tasks p r = some mrec →
        (check_ahead_of_schedule p r).isSome = true →
        (mrec.severity = "medium" →
          ∀ prev, pv = some prev → check_deadline_change u prev = none) →
        evaluate p u r pv = mrec) := by
  intro p u r pv
  constructor
  · intro _
    exact evaluate_eq_firstMinBy p u r pv
  · intro mrec hm ha hdl
    obtain ⟨arec, ha2⟩ := Option.isSome_iff_exists.mp ha
    have hmin : ∀ x ∈ candidates p u r pv, sevRank mrec ≤ sevRank x := by
      intro x hx
      rcases (check_missed_tasks_fired hm).2.1 with hsev | hsev
      · have h0 : sevRank mrec = 0 := by simp [sevRank, severity_order, hsev]
        rw [h0]
        exact Nat.zero_le _
      · have h1 : sevRank mrec = 1 := by simp [sevRank, severity_order, hsev]
        rw [h1]
        rcases mem_candidates hx with hc | hc | ⟨prev, hprev, hc | hc | hc⟩
        · have : x = mrec := by rw [hm] at hc; exact (Option.some_inj.mp hc).symm
          subst this
          simp [sevRank, severity_order, hsev]
        · have := (check_ahead_of_schedule_fired hc).2.1
          simp [sevRank, severity_order, this]
        · have := (check_hours_change_fired hc).2.1
          simp [sevRank, severity_order, this]
        · exact absurd hc (by rw [hdl hsev prev hprev]; simp)
        · have := (check_situation_change_fired hc).2.1
          simp [sevRank, severity_order, this]
    obtain ⟨rest, hcand⟩ : ∃ rest, candidates p u r pv = mrec :: rest := by
      cases pv with
      | none =>
          exact ⟨[arec], by simp only [candidates, hm, ha2, Option.toList_some,
            List.cons_append, List.nil_append]⟩
      | some prv =>
          exact ⟨arec :: ((check_hours_change u prv).toList ++
              (check_deadline_change u prv).toList ++ (check_situation_change u prv).toList),
            by simp only [candidates, hm, ha2, Option.toList_some,
              List.cons_append, List.nil_append]⟩
    rw [evaluate_eq_firstMinBy, hcand,
      firstMinBy_cons_of_min sevRank mrec rest
        (fun x hx => hmin x (by rw [hcand]; exact List.mem_cons_of_mem mrec hx))]
    rfl

end HerPath

namespace HerPath

/-- Claim C5: with `total_tasks_count = 0`, `evaluate` never returns a
recommendation with the missed-tasks trigger (and, the embedding being total,
never raises: the guarded division is never executed). -/
theorem evaluate_zero_total_tasks :
    ∀ (p : ProgressData) (u : UserData) (r : RoadmapData) (pv : Option UserData),
      p.total_tasks_count = 0 →
      (evaluate p u r pv).trigger ≠ some RebalanceTrigger.missed_tasks := by
  intro p u r pv h0
  rw [evaluate_eq_firstMinBy]
  cases hfm : firstMinBy sevRank (candidates p u r pv) with
  | none => simp [noRebalanceRecommendation]
  | some m =>
      simp only [Option.getD_some]
      have hmem := firstMinBy_mem sevRank hfm
      rcases mem_candidates hmem with hc | hc | ⟨prev, hprev, hc | hc | hc⟩
      · simp [check_missed_tasks, h0] at hc
      · rw [(check_ahead_of_schedule_fired hc).1]; simp
      · rw [(check_hours_change_fired hc).1]; simp
      · rw [(check_deadline_change_fired hc).1]; simp
      · rw [(check_situation_change_fired hc).1]; simp

/-- Claim C4: for `total_tasks_count > 0`, the missed-tasks check fires iff
`missed_tasks_count / total_tasks_count * 100 >= 30`; when it fires the severity
is high iff the percentage is `>= 50` and medium otherwise, and the message
embeds the rounded percentage. Concretely, 7 of 20 missed (35%) yields a
rebalance recommendation with the missed-tasks trigger and severity medium, and
11 of 20 (55%) yields severity high. -/
theorem check_missed_tasks_spec :
    (∀ (p : ProgressData) (r : RoadmapData), 0 < p.total_tasks_count →
      (((check_missed_tasks p r).isSome = true) ↔
        (p.missed_tasks_count : ℚ) / (p.total_tasks_count : ℚ) * 100 ≥ 30) ∧
      (∀ rec, check_missed_tasks p r = some rec →
        rec.severity =
          (if (p.missed_tasks_count : ℚ) / (p.total_tasks_count : ℚ) * 100 ≥ 50
            then "high" else "medium") ∧
        rec.trigger = some RebalanceTrigger.missed_tasks ∧
        rec.should_rebalance = true ∧
        rec.message = "You\x27ve missed " ++
          toString (formatRound ((p.missed_tasks_count : ℚ) / (p.total_tasks_count : ℚ) * 100)) ++
          "% of tasks. Let\x27s adjust your roadmap to be more achievable.")) ∧
    (evaluate ⟨0, 7, 20⟩ ⟨10, none, none⟩ ⟨6, 12⟩ none).should_rebalance = true ∧
    (evaluate ⟨0, 7, 20⟩ ⟨10, none, none⟩ ⟨6, 12⟩ none).trigger =
      some RebalanceTrigger.missed_tasks ∧
    (evaluate ⟨0, 7, 20⟩ ⟨10, none, none⟩ ⟨6, 12⟩ none).severity = "medium" ∧
    (evaluate ⟨0, 11, 20⟩ ⟨10, none, none⟩ ⟨6, 12⟩ none).severity = "high" := by
  refine ⟨?_, ?_, ?_, ?_, ?_⟩
  · intro p r hpos
    have hne : ¬ p.total_tasks_count = 0 := by omega
    constructor
    · simp only [check_missed_tasks, MISSED_TASK_THRESHOLD_PERCENT, if_neg hne]
      split
      · next h => simpa using h
      · next h => simpa using h
    · intro rec hrec
      simp only [check_missed_tasks, MISSED_TASK_THRESHOLD_PERCENT, if_neg hne] at hrec
      split at hrec
      · injection hrec with hrec
        subst hrec
        exact ⟨rfl, rfl, rfl, rfl⟩
      · simp at hrec
  · norm_num [evaluate, candidates, check_missed_tasks, check_ahead_of_schedule,
      MISSED_TASK_THRESHOLD_PERCENT, AHEAD_THRESHOLD_PERCENT, formatRound]
  · norm_num [evaluate, candidates, check_missed_tasks, check_ahead_of_schedule,
      MISSED_TASK_THRESHOLD_PERCENT, AHEAD_THRESHOLD_PERCENT, formatRound]
  · norm_num [evaluate, candidates, check_missed_tasks, check_ahead_of_schedule,
      MISSED_TASK_THRESHOLD_PERCENT, AHEAD_THRESHOLD_PERCENT, formatRound]
  · norm_num [evaluate, candidates, check_missed_tasks, check_ahead_of_schedule,
      MISSED_TASK_THRESHOLD_PERCENT, AHEAD_THRESHOLD_PERCENT, formatRound]

/-- Claim C6, amended: the ahead-of-schedule check is not skipped when
`total_weeks = 0`; the expected percentage is taken to be 0, so the check fires
iff `completion_percentage >= 20`. When `total_weeks > 0` it fires iff
`completion_percent >= current_week / total_weeks * 100 + 20`. Its severity is
always low. -/
theorem check_ahead_of_schedule_spec :
    ∀ (p : ProgressData) (r : RoadmapData),
      (r.total_weeks = 0 →
        (((check_ahead_of_schedule p r).isSome = true) ↔ p.completion_percentage ≥ 20)) ∧
      (0 < r.total_weeks →
        (((check_ahead_of_schedule p r).isSome = true) ↔
          p.completion_percentage ≥ (r.current_week : ℚ) / (r.total_weeks : ℚ) * 100 + 20)) ∧
      (∀ rec, check_ahead_of_schedule p r = some rec →
        rec.severity = "low" ∧ rec.trigger = some RebalanceTrigger.ahead_of_schedule) := by
  intro p r
  refine ⟨?_, ?_, ?_⟩
  · intro h0
    simp only [check_ahead_of_schedule, AHEAD_THRESHOLD_PERCENT,
      if_neg (by omega : ¬ r.total_weeks > 0)]
    split
    · next h => simpa using h
    · next h => simpa using h
  · intro hpos
    simp only [check_ahead_of_schedule, AHEAD_THRESHOLD_PERCENT, if_pos hpos]
    split
    · next h => simpa using h
    · next h => simpa using h
  · intro rec hrec
    exact ⟨(check_ahead_of_schedule_fired hrec).2.1, (check_ahead_of_schedule_fired hrec).1⟩

/-- Claim C8: the hours-changed check is skipped when the previous weekly hours
are 0; otherwise it fires iff `|current - previous| / previous * 100 >= 25`,
with severity medium and a message naming the direction of change. Concretely,
10 -> 6 hours (40%) yields the hours-changed trigger, severity medium, and a
message noting the decrease. -/
theorem check_hours_change_spec :
    (∀ (cu pu : UserData),
      (pu.weekly_hours = 0 → check_hours_change cu pu = none) ∧
      (pu.weekly_hours ≠ 0 →
        (((check_hours_change cu pu).isSome = true) ↔
          ((|cu.weekly_hours - pu.weekly_hours| : ℤ) : ℚ) / (pu.weekly_hours : ℚ) * 100 ≥ 25) ∧
        (∀ rec, check_hours_change cu pu = some rec →
          rec.severity = "medium" ∧
          rec.trigger = some RebalanceTrigger.hours_changed ∧
          rec.message = "Your weekly hours " ++
            (if cu.weekly_hours > pu.weekly_hours then "increased" else "decreased") ++
            ". Let\x27s adjust your roadmap accordingly."))) ∧
    (evaluate ⟨0, 0, 0⟩ ⟨6, none, none⟩ ⟨6, 12⟩ (some ⟨10, none, none⟩)).trigger =
      some RebalanceTrigger.hours_changed ∧
    (evaluate ⟨0, 0, 0⟩ ⟨6, none, none⟩ ⟨6, 12⟩ (some ⟨10, none, none⟩)).severity = "medium" ∧
    (evaluate ⟨0, 0, 0⟩ ⟨6, none, none⟩ ⟨6, 12⟩ (some ⟨10, none, none⟩)).message =
      "Your weekly hours decreased. Let\x27s adjust your roadmap accordingly." := by
  refine ⟨?_, ?_, ?_, ?_⟩
  · intro cu pu
    constructor
    · intro h0
      simp [check_hours_change, h0]
    · intro hne
      constructor
      · simp only [check_hours_change, HOURS_CHANGE_THRESHOLD_PERCENT, if_neg hne]
        split
        · next h => simpa using h
        · next h => simpa using h
      · intro rec hrec
        simp only [check_hours_change, HOURS_CHANGE_THRESHOLD_PERCENT, if_neg hne] at hrec
        split at hrec
        · injection hrec with hrec
          subst hrec
          exact ⟨rfl, rfl, rfl⟩
        · simp at hrec
  · norm_num [evaluate, candidates, check_missed_tasks, check_ahead_of_schedule,
      check_hours_change, check_deadline_change, check_situation_change,
      MISSED_TASK_THRESHOLD_PERCENT, AHEAD_THRESHOLD_PERCENT, HOURS_CHANGE_THRESHOLD_PERCENT]
  · norm_num [evaluate, candidates, check_missed_tasks, check_ahead_of_schedule,
      check_hours_change, check_deadline_change, check_situation_change,
      MISSED_TASK_THRESHOLD_PERCENT, AHEAD_THRESHOLD_PERCENT, HOURS_CHANGE_THRESHOLD_PERCENT]
  · norm_num [evaluate, candidates, check_missed_tasks, check_ahead_of_schedule,
      check_hours_change, check_deadline_change, check_situation_change,
      MISSED_TASK_THRESHOLD_PERCENT, AHEAD_THRESHOLD_PERCENT, HOURS_CHANGE_THRESHOLD_PERCENT]
    decide

end HerPath

namespace HerPath

/-- Claim C1 counterexample: at 35% missed tasks (severity medium) with the
ahead-of-schedule check also firing, a simultaneous deadline change (severity
high) wins the stable sort, so `evaluate` does not return the missed-tasks
recommendation, refuting the unqualified final sentence of the claim. -/
theorem evaluate_tie_break_counterexample :
    (check_missed_tasks ⟨100, 7, 20⟩ ⟨1, 12⟩).isSome = true ∧
    (check_ahead_of_schedule ⟨100, 7, 20⟩ ⟨1, 12⟩).isSome = true ∧
    (evaluate ⟨100, 7, 20⟩ ⟨10, some "3 months", some "student"⟩ ⟨1, 12⟩
        (some ⟨10, some "Flexible", some "student"⟩)).trigger =
      some RebalanceTrigger.deadline_changed ∧
    (evaluate ⟨100, 7, 20⟩ ⟨10, some "3 months", some "student"⟩ ⟨1, 12⟩
        (some ⟨10, some "Flexible", some "student"⟩)).trigger ≠
      some RebalanceTrigger.missed_tasks := by
  refine ⟨?_, ?_, ?_, ?_⟩
  · norm_num [check_missed_tasks, MISSED_TASK_THRESHOLD_PERCENT]
  · norm_num [check_ahead_of_schedule, AHEAD_THRESHOLD_PERCENT]
  · norm_num [evaluate, candidates, check_missed_tasks, check_ahead_of_schedule,
      check_hours_change, check_deadline_change, check_situation_change,
      MISSED_TASK_THRESHOLD_PERCENT, AHEAD_THRESHOLD_PERCENT, HOURS_CHANGE_THRESHOLD_PERCENT,
      formatRound, List.insertionSort, List.orderedInsert, sevLE, sevRank, severity_order]
    decide
  · norm_num [evaluate, candidates, check_missed_tasks, check_ahead_of_schedule,
      check_hours_change, check_deadline_change, check_situation_change,
      MISSED_TASK_THRESHOLD_PERCENT, AHEAD_THRESHOLD_PERCENT, HOURS_CHANGE_THRESHOLD_PERCENT,
      formatRound, List.insertionSort, List.orderedInsert, sevLE, sevRank, severity_order]
    decide

/-- Claim C1 witness: with no previous profile, 35% missed and ahead of
schedule both firing, `evaluate` returns the missed-tasks recommendation. -/
theorem evaluate_tie_break_witness :
    (evaluate ⟨100, 7, 20⟩ ⟨10, none, none⟩ ⟨1, 12⟩ none).trigger =
      some RebalanceTrigger.missed_tasks := by
  have hm : check_missed_tasks ⟨100, 7, 20⟩ ⟨1, 12⟩ = some
      { should_rebalance := true
        trigger := some RebalanceTrigger.missed_tasks
        severity := "medium"
        message := "You\x27ve missed 35% of tasks. Let\x27s adjust your roadmap to be more achievable."
        suggested_actions :=
          ["Extend your timeline to reduce weekly workload",
           "Focus on the highest priority skills only",
           "Break tasks into smaller, more manageable pieces",
           "Consider if your weekly hours estimate is realistic"] } := by
    norm_num [check_missed_tasks, MISSED_TASK_THRESHOLD_PERCENT, formatRound]
    decide
  have ha : (check_ahead_of_schedule ⟨100, 7, 20⟩ ⟨1, 12⟩).isSome = true := by
    norm_num [check_ahead_of_schedule, AHEAD_THRESHOLD_PERCENT]
  have h := (evaluate_tie_break ⟨100, 7, 20⟩ ⟨10, none, none⟩ ⟨1, 12⟩ none).2 _ hm ha
    (fun _ prev hp => by cases hp)
  rw [h]

/-- Claim C4 witness: the firing condition instantiated at 7 missed of 20. -/
theorem check_missed_tasks_spec_witness :
    ((check_missed_tasks ⟨0, 7, 20⟩ ⟨6, 12⟩).isSome = true) ↔
      (7 : ℚ) / 20 * 100 ≥ 30 := by
  have h := (check_missed_tasks_spec.1 ⟨0, 7, 20⟩ ⟨6, 12⟩ (by norm_num)).1
  simpa using h

/-- Claim C5 witness: zero total tasks with 5 missed tasks never yields the
missed-tasks trigger. -/
theorem evaluate_zero_total_tasks_witness :
    (evaluate ⟨0, 5, 0⟩ ⟨10, none, none⟩ ⟨1, 12⟩ none).trigger ≠
      some RebalanceTrigger.missed_tasks :=
  evaluate_zero_total_tasks ⟨0, 5, 0⟩ ⟨10, none, none⟩ ⟨1, 12⟩ none rfl

/-- Claim C6 counterexample: with `total_weeks = 0` and completion 50%,
`evaluate` returns the ahead-of-schedule trigger, refuting the claim that the
check is skipped whenever `total_weeks = 0`. -/
theorem check_ahead_zero_weeks_counterexample :
    (⟨1, 0⟩ : RoadmapData).total_weeks = 0 ∧
    (evaluate ⟨50, 0, 0⟩ ⟨10, none, none⟩ ⟨1, 0⟩ none).trigger =
      some RebalanceTrigger.ahead_of_schedule := by
  constructor
  · rfl
  · norm_num [evaluate, candidates, check_missed_tasks, check_ahead_of_schedule,
      MISSED_TASK_THRESHOLD_PERCENT, AHEAD_THRESHOLD_PERCENT]

/-- Claim C6 witness: at week 6 of 12 (expected 50%) with completion 75%, the
ahead-of-schedule check fires. -/
theorem check_ahead_of_schedule_spec_witness :
    (check_ahead_of_schedule ⟨75, 0, 0⟩ ⟨6, 12⟩).isSome = true := by
  have h := ((check_ahead_of_schedule_spec ⟨75, 0, 0⟩ ⟨6, 12⟩).2.1 (by norm_num))
  rw [h]
  norm_num

/-- Claim C8 witness: the firing condition instantiated at hours 10 -> 6. -/
theorem check_hours_change_spec_witness :
    ((check_hours_change ⟨6, none, none⟩ ⟨10, none, none⟩).isSome = true) ↔
      ((|(6 : ℤ) - 10| : ℤ) : ℚ) / 10 * 100 ≥ 25 := by
  have h := ((check_hours_change_spec.1 ⟨6, none, none⟩ ⟨10, none, none⟩).2 (by norm_num)).1
  simpa using h

end HerPath

namespace HerPath

theorem expectedNumbers_eq_range :
    ∀ (n c : ℕ), expectedNumbers c n = (List.range' c n).map (fun (k : ℕ) => some (k : ℤ)) := by
  intro n
  induction n with
  | zero => intro c; rfl
  | succ k ih =>
      intro c
      rw [List.range'_succ, List.map_cons, ← ih (c + 1)]
      rfl

theorem expectedNumbers_split :
    ∀ (m c n : ℕ), expectedNumbers c (m + n) = expectedNumbers c m ++ expectedNumbers (c + m) n := by
  intro m
  induction m with
  | zero => intro c n; rw [Nat.zero_add, Nat.add_zero]; rfl
  | succ k ih =>
      intro c n
      have h1 : k + 1 + n = (k + n) + 1 := by omega
      have h2 : c + 1 + k = c + (k + 1) := by omega
      rw [h1]
      show some (c : ℤ) :: expectedNumbers (c + 1) (k + n) = _
      rw [ih (c + 1) n, h2]
      rfl

theorem renumberWeeks_map_number :
    ∀ (c : ℕ) (ws : List RawWeek),
      (renumberWeeks c ws).map (fun w => w.week_number) = expectedNumbers c ws.length := by
  intro c ws
  induction ws generalizing c with
  | nil => rfl
  | cons w rest ih =>
      simp only [renumberWeeks, List.map_cons, List.length_cons, expectedNumbers, ih]

theorem allWeekNumbers_renumberPhases :
    ∀ (c : ℕ) (phases : List RawPhase),
      allWeekNumbers (renumberPhases c phases) = expectedNumbers c (totalWeekCount phases) := by
  intro c phases
  induction phases generalizing c with
  | nil => rfl
  | cons phase rest ih =>
      cases hw : phase.weeks with
      | none =>
          rw [renumberPhases, hw]
          simp only [allWeekNumbers, totalWeekCount, phaseWeeks, hw, Option.getD_none,
            List.map_nil, List.nil_append, List.length_nil, Nat.zero_add]
          exact ih c
      | some ws =>
          rw [renumberPhases, hw]
          simp only [allWeekNumbers, totalWeekCount, phaseWeeks, hw, Option.getD_some]
          rw [renumberWeeks_map_number, ih (c + ws.length), expectedNumbers_split ws.length]

/-- Claim C2: after the continuity pass, the week numbers across all phases, in
phase order and week order, are exactly `1, 2, ..., N` where `N` is the total
week count, regardless of the input numbers; in particular the two-phase example
with input numbers 5, 5, 1 comes out numbered 1, 2, 3. -/
theorem ensure_week_continuity_contiguous :
    (∀ (phases : List RawPhase),
      allWeekNumbers (ensure_week_continuity phases) =
        (List.range' 1 (totalWeekCount phases)).map (fun (k : ℕ) => some (k : ℤ))) ∧
    allWeekNumbers (ensure_week_continuity
        [⟨none, some [⟨some 5, none, none, none, none⟩, ⟨some 5, none, none, none, none⟩]⟩,
         ⟨none, some [⟨some 1, none, none, none, none⟩]⟩]) =
      [some 1, some 2, some 3] := by
  constructor
  · intro phases
    rw [← expectedNumbers_eq_range]
    exact allWeekNumbers_renumberPhases 1 phases
  · rfl

theorem stripWeek_renumberWeeks :
    ∀ (c : ℕ) (ws : List RawWeek),
      (renumberWeeks c ws).map stripWeekNumber = ws.map stripWeekNumber := by
  intro c ws
  induction ws generalizing c with
  | nil => rfl
  | cons w rest ih =>
      simp only [renumberWeeks, List.map_cons, ih]
      rfl

theorem stripPhase_renumberPhases :
    ∀ (c : ℕ) (phases : List RawPhase),
      (renumberPhases c phases).map stripPhase = phases.map stripPhase := by
  intro c phases
  induction phases generalizing c with
  | nil => rfl
  | cons phase rest ih =>
      cases hw : phase.weeks with
      | none => rw [renumberPhases, hw]; simp only [List.map_cons, ih]
      | some ws =>
          rw [renumberPhases, hw]
          simp only [List.map_cons, ih]
          congr 1
          simp [stripPhase, hw, stripWeek_renumberWeeks]

/-- Claim C10: the continuity pass changes only the `week_number` field —
erasing week numbers on both sides, output and input are identical, so phase
count, phase fields, week counts, order, and every other week field are
preserved. -/
theorem ensure_week_continuity_frame :
    ∀ (phases : List RawPhase),
      (ensure_week_continuity phases).map stripPhase = phases.map stripPhase ∧
      (ensure_week_continuity phases).length = phases.length := by
  intro phases
  refine ⟨stripPhase_renumberPhases 1 phases, ?_⟩
  have h := congrArg List.length (stripPhase_renumberPhases 1 phases)
  simpa using h

end HerPath

namespace HerPath

theorem sanitizeWeek_idem (w : RawWeek) : sanitizeWeek (sanitizeWeek w) = sanitizeWeek w := rfl

theorem renumberWeeks_idem :
    ∀ (c d : ℕ) (ws : List RawWeek), renumberWeeks c (renumberWeeks d ws) = renumberWeeks c ws := by
  intro c d ws
  induction ws generalizing c d with
  | nil => rfl
  | cons w rest ih => simp only [renumberWeeks, ih]

theorem map_sanitizeWeek_renumberWeeks :
    ∀ (c : ℕ) (ws : List RawWeek),
      (renumberWeeks c (ws.map sanitizeWeek)).map sanitizeWeek =
        renumberWeeks c (ws.map sanitizeWeek) := by
  intro c ws
  induction ws generalizing c with
  | nil => rfl
  | cons w rest ih =>
      simp only [List.map_cons, renumberWeeks, ih]
      rfl

theorem map_sanitizePhase_renumberPhases :
    ∀ (c : ℕ) (phases : List RawPhase),
      (renumberPhases c (phases.map sanitizePhase)).map sanitizePhase =
        renumberPhases c (phases.map sanitizePhase) := by
  intro c phases
  induction phases generalizing c with
  | nil => rfl
  | cons phase rest ih =>
      simp only [List.map_cons, sanitizePhase, renumberPhases, List.length_map,
        map_sanitizeWeek_renumberWeeks, Option.getD_some, ih]

theorem renumberWeeks_length :
    ∀ (c : ℕ) (ws : List RawWeek), (renumberWeeks c ws).length = ws.length := by
  intro c ws
  induction ws generalizing c with
  | nil => rfl
  | cons w rest ih => simp [renumberWeeks, ih]

theorem renumberPhases_idem :
    ∀ (c d : ℕ) (phases : List RawPhase),
      renumberPhases c (renumberPhases d phases) = renumberPhases c phases := by
  intro c d phases
  induction phases generalizing c d with
  | nil => rfl
  | cons phase rest ih =>
      cases hw : phase.weeks with
      | none => simp only [renumberPhases, hw, ih]
      | some ws =>
          simp only [renumberPhases, hw, renumberWeeks_idem, renumberWeeks_length, ih]

/-- Claim C7: sanitation is idempotent — applying schema backfill followed by
the continuity pass twice yields the same roadmap body as applying the pair
once. -/
theorem sanitation_pipeline_idempotent :
    ∀ (data : RawRoadmap), sanitation_pipeline (sanitation_pipeline data) = sanitation_pipeline data := by
  intro data
  simp only [sanitation_pipeline, sanitize_roadmap_output, ensure_week_continuity,
    Option.getD_some]
  rw [map_sanitizePhase_renumberPhases, renumberPhases_idem]

end HerPath

namespace HerPath

theorem deactivate_version (uid : String) (doc : RoadmapDoc) :
    ((if doc.uid = uid ∧ doc.is_active = true then { doc with is_active := false } else doc) :
      RoadmapDoc).roadmap_version = doc.roadmap_version := by
  split <;> rfl

theorem activeRoadmaps_deactivate (uid : String) :
    ∀ (store : RoadmapStore), activeRoadmaps uid (deactivate_user_roadmaps uid store) = [] := by
  intro store
  induction store with
  | nil => rfl
  | cons doc rest ih =>
      simp only [deactivate_user_roadmaps, List.map_cons, activeRoadmaps, List.filter_cons] at ih ⊢
      split
      · next hc =>
          rw [if_neg (by simp)]
          exact ih
      · next hc =>
          rw [if_neg (by simpa using hc)]
          exact ih

/-- Claim C3: after any `create_roadmap` call (atomic execution), exactly one
roadmap document of the user is active, namely the newly created one; the new
document carries the largest creation stamp; every prior document is retained
at its position, at most with `is_active` flipped to false; and the
creation-stamp invariant is preserved, so the property holds after every call
of any sequence. -/
theorem create_roadmap_single_active :
    ∀ (store : RoadmapStore) (data : NewRoadmapData),
      (∀ doc ∈ store, doc.roadmap_version < store.length) →
      activeRoadmaps data.uid (create_roadmap store data).1 = [createdDoc store data] ∧
      (∀ doc ∈ (create_roadmap store data).1,
        doc = createdDoc store data ∨
          doc.roadmap_version < (createdDoc store data).roadmap_version) ∧
      (create_roadmap store data).1.length = store.length + 1 ∧
      (∀ i, i < store.length → ∀ doc, store[i]? = some doc →
        (create_roadmap store data).1[i]? = some doc ∨
        (create_roadmap store data).1[i]? = some { doc with is_active := false }) ∧
      (∀ doc ∈ (create_roadmap store data).1,
        doc.roadmap_version < (create_roadmap store data).1.length) := by
  intro store data hinv
  have hlen : (create_roadmap store data).1.length = store.length + 1 := by
    simp [create_roadmap, deactivate_user_roadmaps]
  have hmem : ∀ doc ∈ (create_roadmap store data).1,
      doc = createdDoc store data ∨ doc.roadmap_version < store.length := by
    intro doc hdoc
    simp only [create_roadmap] at hdoc
    rcases List.mem_append.mp hdoc with h | h
    · obtain ⟨doc0, hdoc0, rfl⟩ := List.mem_map.mp h
      right
      rw [deactivate_version]
      exact hinv doc0 hdoc0
    · left
      exact List.mem_singleton.mp h
  refine ⟨?_, ?_, hlen, ?_, ?_⟩
  · simp only [create_roadmap, activeRoadmaps, List.filter_append]
    rw [show (deactivate_user_roadmaps data.uid store).filter
        (fun doc => decide (doc.uid = data.uid ∧ doc.is_active = true)) = []
      from activeRoadmaps_deactivate data.uid store]
    simp [createdDoc]
  · intro doc hdoc
    rcases hmem doc hdoc with h | h
    · exact Or.inl h
    · exact Or.inr h
  · intro i hi doc hdoc
    have h1 : (create_roadmap store data).1[i]? =
        (deactivate_user_roadmaps data.uid store)[i]? := by
      simp only [create_roadmap]
      rw [List.getElem?_append_left]
      simpa [deactivate_user_roadmaps] using hi
    rw [h1]
    simp only [deactivate_user_roadmaps, List.getElem?_map, hdoc]
    by_cases hc : doc.uid = data.uid ∧ doc.is_active = true
    · right; simp [hc]
    · left; simp [hc]
  · intro doc hdoc
    rw [hlen]
    rcases hmem doc hdoc with h | h
    · rw [h]; simp [createdDoc]
    · omega

/-- Claim C3 witness: creating the first roadmap of a user in an empty store
leaves exactly that document active. -/
theorem create_roadmap_single_active_witness :
    activeRoadmaps "u" (create_roadmap [] ⟨"u", 12, 1, none⟩).1 =
      [createdDoc [] ⟨"u", 12, 1, none⟩] :=
  (create_roadmap_single_active [] ⟨"u", 12, 1, none⟩ (by simp)).1

/-- Claim C9: `update_current_week` returns false and leaves the store
unchanged when the user has no active roadmap; when the active roadmap exists
(the first such document), it rewrites only that document's `current_week`,
leaving all other documents and all its other fields unchanged, and returns
true. -/
theorem update_current_week_spec :
    ∀ (store : RoadmapStore) (uid : String) (week : ℤ),
      (activeRoadmaps uid store = [] → update_current_week store uid week = (store, false)) ∧
      (∀ pre doc post, store = pre ++ doc :: post →
        activeRoadmaps uid pre = [] → doc.uid = uid → doc.is_active = true →
        update_current_week store uid week =
          (pre ++ { doc with current_week := week } :: post, true)) := by
  intro store uid week
  constructor
  · induction store with
    | nil => intro _; rfl
    | cons d rest ih =>
        intro h
        simp only [activeRoadmaps, List.filter_cons] at h
        split at h
        · simp at h
        · next hc =>
            have hcond : ¬(d.uid = uid ∧ d.is_active = true) := by simpa using hc
            have hrest := ih (by simpa [activeRoadmaps] using h)
            simp only [update_current_week, update_active_week, if_neg hcond]
            simp only [update_current_week] at hrest
            rw [hrest]
  · intro pre
    induction pre generalizing store with
    | nil =>
        intro doc post hstore hpre huid hact
        subst hstore
        simp only [List.nil_append, update_current_week, update_active_week,
          if_pos (And.intro huid hact)]
    | cons p pre ih =>
        intro doc post hstore hpre huid hact
        subst hstore
        simp only [activeRoadmaps, List.filter_cons] at hpre
        split at hpre
        · simp at hpre
        · next hc =>
            have hcond : ¬(p.uid = uid ∧ p.is_active = true) := by simpa using hc
            have hrec := ih (pre ++ doc :: post) doc post rfl
              (by simpa [activeRoadmaps] using hpre) huid hact
            simp only [update_current_week] at hrec
            simp only [List.cons_append, update_current_week, update_active_week,
              if_neg hcond, List.append_eq]
            rw [hrec]

/-- Claim C9 witness: updating the current week of a store holding one active
document rewrites exactly that field and returns true. -/
theorem update_current_week_spec_witness :
    update_current_week [⟨"u", 0, 12, 1, true, none⟩] "u" 5 =
      ([⟨"u", 0, 12, 5, true, none⟩], true) :=
  (update_current_week_spec [⟨"u", 0, 12, 1, true, none⟩] "u" 5).2
    [] ⟨"u", 0, 12, 1, true, none⟩ [] rfl rfl rfl rfl

end HerPath
